import Mathlib

/-!
Verification development for the vk-connect bridge protocol.

The repository ships `src/types/bridge.ts`, the type layer of the bridge:
event envelopes, error-data shapes and the public facade interface. The
runtime protocol engine (Correlation Engine, Event Dispatcher, capability
query) is specified in the design document; where its implementation is not
part of the sources, the corresponding definitions below are modelled from
the specification and are marked as such in their doc comments.

We embed the TypeScript value shapes as a small JSON-like value type and
the relevant TypeScript type expressions as a small deep embedding `Ty`.
-/

namespace VKConnect

/-- JSON-like values, the universe in which TypeScript object shapes from
`src/types/bridge.ts` are interpreted. -/
inductive JVal where
  | null : JVal
  | bool : Bool → JVal
  | num : Int → JVal
  | str : String → JVal
  | arr : List JVal → JVal
  | obj : List (String × JVal) → JVal

/-- Field lookup on an object value (first binding wins); `none` on
non-objects and missing keys. -/
def getField : JVal → String → Option JVal
  | .obj fs, k => fs.lookup k
  | _, _ => none

/-- Whether a value is an object carrying a field named `k`. -/
def hasField (v : JVal) (k : String) : Bool :=
  (getField v k).isSome

/-- The value is a JSON string. -/
def isStr : JVal → Bool
  | .str _ => true
  | _ => false

/-- The value is a JSON number. -/
def isNum : JVal → Bool
  | .num _ => true
  | _ => false

/-- The value is an array of strings (TS `string[]`). -/
def isStrArr : JVal → Bool
  | .arr xs => xs.all isStr
  | _ => false

/-- The value is a number or a string (TS `number | string`). -/
def isNumOrStr (v : JVal) : Bool :=
  isNum v || isStr v

/-- The value is the string literal `s` (TS literal type). -/
def isStrVal (s : String) : JVal → Bool
  | .str t => s == t
  | _ => false

/-- The object has a required field `k` whose value satisfies `pred`. -/
def reqField (v : JVal) (k : String) (pred : JVal → Bool) : Bool :=
  match getField v k with
  | none => false
  | some x => pred x

/-- The object may omit field `k`; when present its value satisfies
`pred` (TS optional field `k?:`). -/
def optField (v : JVal) (k : String) (pred : JVal → Bool) : Bool :=
  match getField v k with
  | none => true
  | some x => pred x

/-- Shape of `ErrorDataClientError` (src/types/bridge.ts lines 88-92):
`{error_code: number, error_reason: string, error_description?: string}`. -/
def isErrorDataClientError (v : JVal) : Bool :=
  reqField v "error_code" isNum
    && reqField v "error_reason" isStr
    && optField v "error_description" isStr

/-- Shape of `ErrorDataAPIError` (src/types/bridge.ts lines 97-101):
`{error_code: number, error_msg: string, request_params: string[]}`. -/
def isErrorDataAPIError (v : JVal) : Bool :=
  reqField v "error_code" isNum
    && reqField v "error_msg" isStr
    && reqField v "request_params" isStrArr

/-- Shape of `ErrorDataAuthError` (src/types/bridge.ts lines 106-110):
`{error_code: number, error_reason: string, error_description?: string[]}`. -/
def isErrorDataAuthError (v : JVal) : Bool :=
  reqField v "error_code" isNum
    && reqField v "error_reason" isStr
    && optField v "error_description" isStrArr

/-- Shape of the `ErrorData` union (src/types/bridge.ts lines 115-130): a
tagged union discriminated by `error_type`, each variant carrying a
kind-specific `error_data` and an optional `request_id: number | string`. -/
def isErrorData (v : JVal) : Bool :=
  ((reqField v "error_type" (isStrVal "client_error")
      && reqField v "error_data" isErrorDataClientError)
    || (reqField v "error_type" (isStrVal "api_error")
      && reqField v "error_data" isErrorDataAPIError)
    || (reqField v "error_type" (isStrVal "auth_error")
      && reqField v "error_data" isErrorDataAuthError))
    && optField v "request_id" isNumOrStr

/-- Value of `VKBridgeEventBase<Type, Data>` (src/types/bridge.ts lines
135-140): the envelope delivered to listeners, `{detail: {type, data}}`. -/
def mkVKBridgeEventBase (t : String) (d : JVal) : JVal :=
  .obj [("detail", .obj [("type", .str t), ("data", d)])]

/-- Optional `request_id` binding contributed by `RequestIdProp`
(src/types/bridge.ts line 83). -/
def ridFields : Option JVal → List (String × JVal)
  | none => []
  | some r => [("request_id", r)]

/-- Value of `VKBridgeSuccessEvent` (src/types/bridge.ts lines 152-156):
an event base whose data is `ReceiveData<Method> & RequestIdProp`, i.e. the
response fields together with the echoed `request_id` when supplied. -/
def mkVKBridgeSuccessEvent (t : String) (dataFields : List (String × JVal))
    (rid : Option JVal) : JVal :=
  mkVKBridgeEventBase t (.obj (ridFields rid ++ dataFields))

/-- Deep embedding of the TypeScript type expressions used by the public
facade declarations in `src/types/bridge.ts`. An object field is a triple
of name, optional flag, and field type. -/
inductive Ty where
  | num : Ty
  | str : Ty
  | boolT : Ty
  | void : Ty
  | promise : Ty → Ty
  | union : Ty → Ty → Ty
  | inter : Ty → Ty → Ty
  | obj : List (String × Bool × Ty) → Ty

/-- The type `number | string`, as written for `request_id`. -/
def isNumOrStrTy : Ty → Bool
  | .union .num .str => true
  | _ => false

/-- Embedding of `RequestIdProp` (src/types/bridge.ts line 83):
`{ request_id?: number | string }`. -/
def requestIdPropTy : Ty :=
  .obj [("request_id", true, .union .num .str)]

/-- Whether a type guarantees an optional `request_id` field of type
`number | string`: an object type listing such a field, or an intersection
one of whose sides does. -/
def hasOptionalRequestIdField : Ty → Bool
  | .inter a b => hasOptionalRequestIdField a || hasOptionalRequestIdField b
  | .obj fs => fs.any fun f => f.1 == "request_id" && f.2.1 && isNumOrStrTy f.2.2
  | _ => false

/-- The props parameter type of `VKBridgeSend` at method `K`
(src/types/bridge.ts line 192): `RequestProps<K> & RequestIdProp`. The
catalogue mapping `RequestProps` lives in `src/types/data.ts`, outside the
shipped sources, so it is a parameter `rp`. -/
def sendPropsTy (rp : String → Ty) (m : String) : Ty :=
  .inter (rp m) requestIdPropTy

/-- The return type of `VKBridgeSend` at method `K` (src/types/bridge.ts
line 193): `Promise<K extends ReceiveMethodName ? ReceiveData<K> : void>`.
`isReceive` decides membership in `ReceiveMethodName` and `rd` is the
`ReceiveData` catalogue mapping, both from `src/types/data.ts`, outside the
shipped sources, so they are parameters. -/
def sendReturnTy (isReceive : String → Bool) (rd : String → Ty) (m : String) : Ty :=
  .promise (if isReceive m then rd m else .void)

/-- Signature of `VKBridgeSend` (src/types/bridge.ts lines 190-193) at a
method name: the pair of its props parameter type and its return type. -/
def VKBridgeSendSig (isReceive : String → Bool) (rp rd : String → Ty)
    (m : String) : Ty × Ty :=
  (sendPropsTy rp m, sendReturnTy isReceive rd m)

/-- Declared type of the `send` member of the `VKBridge` interface
(src/types/bridge.ts line 209): `VKBridgeSend`. -/
def VKBridge_send_sig : (String → Bool) → (String → Ty) → (String → Ty) → String → Ty × Ty :=
  VKBridgeSendSig

/-- Declared type of the `sendPromise` member of the `VKBridge` interface
(src/types/bridge.ts line 215): `VKBridgeSend`, the deprecated alias of
`send`. -/
def VKBridge_sendPromise_sig : (String → Bool) → (String → Ty) → (String → Ty) → String → Ty × Ty :=
  VKBridgeSendSig

/-- Modelled from the spec: the Correlation Engine implementation is not
part of the shipped sources (only its type layer is); §3 "Pending Call"
gives its fields `requestId` and `methodName` (the settle continuation is
represented by the settlement log of the run). -/
structure PendingCall where
  requestId : Nat
  methodName : String
deriving DecidableEq, Repr

/-- Modelled from the spec: the static method catalogue (`src/types/data.ts`
is not part of the shipped sources). `isReceiveMethod` decides whether a
method is receive-capable; `successEventName`/`failedEventName` give the
expected result event names of a receive method (§3, §4.1). -/
structure Catalogue where
  isReceiveMethod : String → Bool
  successEventName : String → String
  failedEventName : String → String

/-- Modelled from the spec: an inbound result-shaped event as seen by the
Correlation Engine (§3 "Inbound Event"): an event name, an optional
`request_id` correlation field and a payload. -/
structure InEvent where
  type : String
  request_id : Option Nat
  payload : JVal

/-- Modelled from the spec: a promise settlement (§4.1): the pending call's
id resolved with a payload, or rejected with error data. -/
inductive Settlement where
  | resolved : Nat → JVal → Settlement
  | rejected : Nat → JVal → Settlement

/-- The request id a settlement settles. -/
def Settlement.requestId : Settlement → Nat
  | .resolved i _ => i
  | .rejected i _ => i

/-- Modelled from the spec: the Correlation Engine state (§3 lifecycle):
the outstanding Pending Calls, oldest first, and the id generator. -/
structure EngineState where
  pending : List PendingCall
  nextId : Nat

/-- The ids of the outstanding Pending Calls. -/
def EngineState.pendingIds (st : EngineState) : List Nat :=
  st.pending.map PendingCall.requestId

/-- The initial engine state: no Pending Calls. -/
def EngineState.start : EngineState :=
  ⟨[], 0⟩

/-- Modelled from the spec: what `send` hands back (§4.1): an immediately
resolved void promise for request-only methods, or a promise outstanding
under the generated request id for correlated calls. -/
inductive SendResult where
  | immediate : SendResult
  | promised : Nat → SendResult
deriving DecidableEq, Repr

/-- Modelled from the spec: `send` (§4.1). For a receive-capable method a
fresh `requestId` not currently in use is generated and a Pending Call is
appended; a request-only method is sent without correlation bookkeeping
and resolves immediately with no value. -/
def send (cat : Catalogue) (st : EngineState) (m : String) :
    EngineState × SendResult :=
  if cat.isReceiveMethod m then
    (⟨st.pending ++ [⟨st.nextId, m⟩], st.nextId + 1⟩, .promised st.nextId)
  else
    (st, .immediate)

/-- Modelled from the spec: the matching rule (§4.1): an inbound event is
attributed to a Pending Call when the event name equals the expected
success or failure event name of the call's method, and the event's
`request_id`, if present, equals the call's id. -/
def matchesEvent (cat : Catalogue) (e : InEvent) (p : PendingCall) : Bool :=
  (cat.successEventName p.methodName == e.type
      || cat.failedEventName p.methodName == e.type)
    && (match e.request_id with
        | none => true
        | some rid => p.requestId == rid)

/-- First element satisfying `pred` together with the list with that one
element removed; `none` when no element satisfies `pred`. -/
def findRemove (pred : α → Bool) : List α → Option (α × List α)
  | [] => none
  | x :: xs =>
    if pred x then some (x, xs)
    else
      match findRemove pred xs with
      | none => none
      | some (y, ys) => some (y, x :: ys)

/-- Modelled from the spec: how a matched event settles its Pending Call
(§4.1): a success event resolves with the event's payload, a failure event
rejects with the structured error data. -/
def settleOf (cat : Catalogue) (e : InEvent) (p : PendingCall) : Settlement :=
  if cat.successEventName p.methodName == e.type then
    .resolved p.requestId e.payload
  else
    .rejected p.requestId e.payload

/-- Modelled from the spec: the Correlation Engine's event-matching step
(§4.1): the oldest Pending Call matching the event is settled and removed
the instant it is settled; an unmatched event is dropped silently. -/
def handleEvent (cat : Catalogue) (st : EngineState) (e : InEvent) :
    EngineState × Option Settlement :=
  match findRemove (matchesEvent cat e) st.pending with
  | none => (st, none)
  | some (p, rest) => (⟨rest, st.nextId⟩, some (settleOf cat e p))

/-- An operation against the engine: an outbound `send` or the delivery of
an inbound event. -/
inductive Op where
  | send : String → Op
  | deliver : InEvent → Op

/-- One engine step, threading the settlement log. -/
def step (cat : Catalogue) (s : EngineState × List Settlement) (op : Op) :
    EngineState × List Settlement :=
  match op with
  | .send m => ((send cat s.1 m).1, s.2)
  | .deliver e =>
    match handleEvent cat s.1 e with
    | (st, none) => (st, s.2)
    | (st, some sl) => (st, s.2 ++ [sl])

/-- Run a sequence of operations from the initial state, collecting every
settlement ever emitted. -/
def run (cat : Catalogue) (ops : List Op) : EngineState × List Settlement :=
  ops.foldl (step cat) (EngineState.start, [])

/-- Modelled from the spec: a subscribed listener (§4.2): an identity (for
reference-equality bookkeeping) and a behavior which, on an event, either
returns normally or throws (modelled as `Except`). -/
structure Listener where
  id : Nat
  behavior : InEvent → Except String Unit

/-- Modelled from the spec: the facade state: the Correlation Engine state
together with the subscribed listeners, in subscription order. -/
structure FullState where
  engine : EngineState
  listeners : List Listener

/-- Modelled from the spec: processing one inbound raw event (§4.2, §5):
every currently-subscribed listener is synchronously invoked once, in
subscription order, over a stable snapshot of the listener list; the
Correlation Engine additionally runs its matching pass, which does not
consult the listeners' outcomes. Returns the new state, the delivery trace
(listener id paired with that listener's outcome) and the settlement. -/
def processInbound (cat : Catalogue) (st : FullState) (e : InEvent) :
    FullState × List (Nat × Except String Unit) × Option Settlement :=
  let deliveries := st.listeners.map fun l => (l.id, l.behavior e)
  match handleEvent cat st.engine e with
  | (eng, sl) => (⟨eng, st.listeners⟩, deliveries, sl)

/-- Modelled from the spec: the capability catalogue consulted by
`supports` (§4.3, §6): a static association of method names to the
supported-on-current-platform verdict. -/
def supports (entries : List (String × Bool)) (m : String) : Bool :=
  match entries.lookup m with
  | some b => b
  | none => false

/-- Modelled from the spec: `supports` as a facade query (§4.3): a pure
lookup, returning the state untouched alongside the boolean verdict. -/
def supportsQuery (st : FullState) (entries : List (String × Bool))
    (m : String) : FullState × Bool :=
  (st, supports entries m)

theorem findRemove_eq_none_of {pred : α → Bool} :
    ∀ {l : List α}, (∀ x ∈ l, pred x = false) → findRemove pred l = none := by
  intro l
  induction l with
  | nil => intro _; rfl
  | cons x xs ih =>
    intro h
    have hx : pred x = false := h x (List.mem_cons_self x xs)
    have hxs : findRemove pred xs = none := ih fun y hy => h y (List.mem_cons_of_mem x hy)
    simp [findRemove, hx, hxs]

theorem findRemove_eq_some {pred : α → Bool} :
    ∀ {l : List α} {p : α} {rest : List α}, findRemove pred l = some (p, rest) →
      ∃ l₁ l₂, l = l₁ ++ p :: l₂ ∧ rest = l₁ ++ l₂ ∧ pred p = true ∧
        ∀ x ∈ l₁, pred x = false := by
  intro l
  induction l with
  | nil => intro p rest h; simp [findRemove] at h
  | cons x xs ih =>
    intro p rest h
    by_cases hx : pred x = true
    · simp [findRemove, hx] at h
      exact ⟨[], xs, by simp [h.1], by simp [h.2], h.1 ▸ hx, by simp⟩
    · have hx' : pred x = false := by simpa using hx
      rw [findRemove, if_neg hx] at h
      cases hxs : findRemove pred xs with
      | none => rw [hxs] at h; exact absurd h (by simp)
      | some pr =>
        rw [hxs] at h
        obtain ⟨y, ys⟩ := pr
        simp at h
        obtain ⟨l₁, l₂, hl, hr, hp, hall⟩ := ih hxs
        refine ⟨x :: l₁, l₂, ?_, ?_, h.1 ▸ hp, ?_⟩
        · simp [hl, h.1]
        · simp [← h.2, hr]
        · intro z hz
          rcases List.mem_cons.mp hz with hz | hz
          · exact hz ▸ hx'
          · exact hall z hz

theorem findRemove_append_of_none {pred : α → Bool} :
    ∀ {l₁ : List α}, (∀ x ∈ l₁, pred x = false) → ∀ (l₂ : List α),
      findRemove pred (l₁ ++ l₂) =
        Option.map (fun pr => (pr.1, l₁ ++ pr.2)) (findRemove pred l₂) := by
  intro l₁
  induction l₁ with
  | nil =>
    intro _ l₂
    cases h2 : findRemove pred l₂ <;> simp [h2]
  | cons x xs ih =>
    intro h l₂
    have hx : pred x = false := h x (List.mem_cons_self x xs)
    have hrec := ih (fun y hy => h y (List.mem_cons_of_mem x hy)) l₂
    rw [List.cons_append, findRemove, if_neg (by simp [hx]), hrec]
    cases findRemove pred l₂ <;> simp

theorem settleOf_requestId (cat : Catalogue) (e : InEvent) (p : PendingCall) :
    (settleOf cat e p).requestId = p.requestId := by
  unfold settleOf
  by_cases h : cat.successEventName p.methodName == e.type
  · simp [h, Settlement.requestId]
  · simp [h, Settlement.requestId]

/-- The engine invariant tying a reachable state to its settlement log:
outstanding request ids are distinct, settled ids are distinct, every id
ever issued is below the generator, and no outstanding id was already
settled. -/
def Inv (st : EngineState) (log : List Settlement) : Prop :=
  st.pendingIds.Nodup ∧
  (log.map Settlement.requestId).Nodup ∧
  (∀ i ∈ st.pendingIds, i < st.nextId) ∧
  (∀ i ∈ log.map Settlement.requestId, i < st.nextId) ∧
  (∀ i ∈ st.pendingIds, i ∉ log.map Settlement.requestId)

theorem inv_start : Inv EngineState.start [] := by
  refine ⟨?_, ?_, ?_, ?_, ?_⟩ <;> simp [EngineState.start, EngineState.pendingIds]

theorem inv_send (cat : Catalogue) (m : String) {st : EngineState}
    {log : List Settlement} (h : Inv st log) : Inv (send cat st m).1 log := by
  obtain ⟨h1, h2, h3, h4, h5⟩ := h
  unfold send
  by_cases hm : cat.isReceiveMethod m
  · rw [if_pos hm]
    have hids : (EngineState.mk (st.pending ++ [⟨st.nextId, m⟩]) (st.nextId + 1)).pendingIds
        = st.pendingIds ++ [st.nextId] := by
      simp [EngineState.pendingIds]
    refine ⟨?_, h2, ?_, ?_, ?_⟩
    · rw [hids, List.nodup_append]
      refine ⟨h1, by simp, ?_⟩
      intro i hi hi'
      have : i = st.nextId := by simpa using hi'
      exact absurd (h3 i hi) (by simp [this])
    · intro i hi
      rw [hids] at hi
      rcases List.mem_append.mp hi with hi | hi
      · exact Nat.lt_trans (h3 i hi) (Nat.lt_succ_self _)
      · have : i = st.nextId := by simpa using hi
        simp [this]
    · intro i hi
      exact Nat.lt_trans (h4 i hi) (Nat.lt_succ_self _)
    · intro i hi
      rw [hids] at hi
      rcases List.mem_append.mp hi with hi | hi
      · exact h5 i hi
      · have : i = st.nextId := by simpa using hi
        intro hmem
        exact absurd (h4 i hmem) (by simp [this])
  · rw [if_neg hm]
    exact ⟨h1, h2, h3, h4, h5⟩

theorem inv_handleEvent (cat : Catalogue) (e : InEvent) {st : EngineState}
    {log : List Settlement} (h : Inv st log) :
    Inv (handleEvent cat st e).1 (log ++ ((handleEvent cat st e).2).toList) := by
  obtain ⟨h1, h2, h3, h4, h5⟩ := h
  unfold handleEvent
  cases hfr : findRemove (matchesEvent cat e) st.pending with
  | none => exact ⟨h1, by simpa using h2, h3, by simpa using h4, by simpa using h5⟩
  | some pr =>
    obtain ⟨p, rest⟩ := pr
    obtain ⟨l₁, l₂, hl, hr, _, _⟩ := findRemove_eq_some hfr
    have hperm : st.pendingIds.Perm
        (p.requestId :: (EngineState.mk rest st.nextId).pendingIds) := by
      simp only [EngineState.pendingIds, hl, hr, List.map_append, List.map_cons]
      exact List.perm_middle
    have hmemp : p.requestId ∈ st.pendingIds := hperm.mem_iff.mpr (by simp)
    have hnodup := (hperm.nodup_iff).mp h1
    have hpnotin : p.requestId ∉ (EngineState.mk rest st.nextId).pendingIds :=
      (List.nodup_cons.mp hnodup).1
    have hrestnodup : (EngineState.mk rest st.nextId).pendingIds.Nodup :=
      (List.nodup_cons.mp hnodup).2
    have hsub : ∀ i ∈ (EngineState.mk rest st.nextId).pendingIds, i ∈ st.pendingIds :=
      fun i hi => hperm.mem_iff.mpr (List.mem_cons_of_mem _ hi)
    have hlog : ((log ++ [settleOf cat e p]).map Settlement.requestId)
        = log.map Settlement.requestId ++ [p.requestId] := by
      simp [settleOf_requestId]
    refine ⟨hrestnodup, ?_, ?_, ?_, ?_⟩
    · simp only [Option.toList, hlog]
      rw [List.nodup_append]
      exact ⟨h2, by simp, by
        intro i hi hi'
        have : i = p.requestId := by simpa using hi'
        exact h5 p.requestId hmemp (this ▸ hi)⟩
    · intro i hi
      exact h3 i (hsub i hi)
    · intro i hi
      simp only [Option.toList, hlog] at hi
      rcases List.mem_append.mp hi with hi | hi
      · exact h4 i hi
      · have : i = p.requestId := by simpa using hi
        exact this ▸ h3 p.requestId hmemp
    · intro i hi
      simp only [Option.toList, hlog]
      intro hmem
      rcases List.mem_append.mp hmem with hmem | hmem
      · exact h5 i (hsub i hi) hmem
      · have : i = p.requestId := by simpa using hmem
        exact hpnotin (this ▸ hi)

theorem inv_step (cat : Catalogue) (op : Op) {s : EngineState × List Settlement}
    (h : Inv s.1 s.2) : Inv (step cat s op).1 (step cat s op).2 := by
  cases op with
  | send m => exact inv_send cat m h
  | deliver e =>
    have := inv_handleEvent cat e h
    unfold step
    cases hh : handleEvent cat s.1 e with
    | mk st' osl =>
      cases osl with
      | none => simpa [hh] using this
      | some sl => simpa [hh] using this

theorem inv_foldl (cat : Catalogue) :
    ∀ (ops : List Op) (s : EngineState × List Settlement), Inv s.1 s.2 →
      Inv (ops.foldl (step cat) s).1 (ops.foldl (step cat) s).2 := by
  intro ops
  induction ops with
  | nil => intro s h; exact h
  | cons op ops ih =>
    intro s h
    exact ih _ (inv_step cat op h)

theorem inv_run (cat : Catalogue) (ops : List Op) :
    Inv (run cat ops).1 (run cat ops).2 :=
  inv_foldl cat ops _ inv_start

/-- A concrete catalogue for evaluating the theorems: the spec's scenario
method `VKWebAppGetUserInfo` is the only receive-capable method, and a
method's result events are named by the `Result`/`Failed` suffixes. -/
def sampleCat : Catalogue :=
  ⟨fun m => m == "VKWebAppGetUserInfo",
   fun m => m ++ "Result",
   fun m => m ++ "Failed"⟩

/-- A concrete success event for `VKWebAppGetUserInfo`. -/
def sampleSuccess (rid : Option Nat) : InEvent :=
  ⟨"VKWebAppGetUserInfoResult", rid, .obj [("id", .num 42)]⟩

/-- A concrete operation sequence: one correlated call, settled by a
success event carrying its id. -/
def sampleOps : List Op :=
  [.send "VKWebAppGetUserInfo", .deliver (sampleSuccess (some 0))]

/-- Claim C1: for every Pending Call created by `send`, the associated
promise settles at most once — the settlement log of any run names each
request id at most once — and delivering a second inbound event matching
an already settled request id leaves the engine state unchanged and emits
no settlement. -/
theorem atMostOnce_settlement (cat : Catalogue) (ops : List Op) (e : InEvent)
    (rid : Nat) (he : e.request_id = some rid)
    (hs : rid ∈ (run cat ops).2.map Settlement.requestId) :
    ((run cat ops).2.map Settlement.requestId).Nodup ∧
    handleEvent cat (run cat ops).1 e = ((run cat ops).1, none) := by
  obtain ⟨_, h2, _, _, h5⟩ := inv_run cat ops
  refine ⟨h2, ?_⟩
  have hmatch : ∀ p ∈ (run cat ops).1.pending, matchesEvent cat e p = false := by
    intro p hp
    have hpid : p.requestId ∈ (run cat ops).1.pendingIds :=
      List.mem_map_of_mem PendingCall.requestId hp
    have hne : p.requestId ≠ rid := fun hEq => (h5 p.requestId hpid) (hEq ▸ hs)
    have hbeq : (p.requestId == rid) = false := by simpa using hne
    unfold matchesEvent
    rw [he]
    simp [hbeq]
  unfold handleEvent
  rw [findRemove_eq_none_of hmatch]

/-- Claim C1, evaluated: after the sample run settles request id 0, the log
names each id once and redelivering the same success event has no effect. -/
theorem atMostOnce_settlement_witness :
    ((run sampleCat sampleOps).2.map Settlement.requestId).Nodup ∧
    handleEvent sampleCat (run sampleCat sampleOps).1 (sampleSuccess (some 0)) =
      ((run sampleCat sampleOps).1, none) :=
  atMostOnce_settlement sampleCat sampleOps (sampleSuccess (some 0)) 0 rfl
    (by decide)

/-- Claim C2: in every reachable engine state no two outstanding Pending
Calls share a request id, and a further `send` of a receive-capable method
generates an id not currently in use by any outstanding call. -/
theorem requestId_uniqueness (cat : Catalogue) (ops : List Op) (m : String)
    (hm : cat.isReceiveMethod m = true) :
    ((run cat ops).1.pendingIds).Nodup ∧
    (send cat (run cat ops).1 m).2 = .promised (run cat ops).1.nextId ∧
    (run cat ops).1.nextId ∉ (run cat ops).1.pendingIds := by
  obtain ⟨h1, _, h3, _, _⟩ := inv_run cat ops
  refine ⟨h1, ?_, ?_⟩
  · simp [send, hm]
  · intro hmem
    exact absurd (h3 _ hmem) (by simp)

/-- Claim C2, evaluated on the sample run. -/
theorem requestId_uniqueness_witness :
    ((run sampleCat sampleOps).1.pendingIds).Nodup ∧
    (send sampleCat (run sampleCat sampleOps).1 "VKWebAppGetUserInfo").2 =
      .promised (run sampleCat sampleOps).1.nextId ∧
    (run sampleCat sampleOps).1.nextId ∉ (run sampleCat sampleOps).1.pendingIds :=
  requestId_uniqueness sampleCat sampleOps "VKWebAppGetUserInfo" (by decide)

/-- Claim C4: with two calls to the same I/O method outstanding, success
events carrying no `request_id` settle them in FIFO order: the first event
resolves the first call's id, the next event resolves the second call's
id. The hypothesis `hq` says no older outstanding call also matches the
method's success event. -/
theorem fifo_tiebreak (cat : Catalogue) (st : EngineState) (m : String)
    (pl : JVal) (hm : cat.isReceiveMethod m = true)
    (hq : ∀ p ∈ st.pending,
      matchesEvent cat ⟨cat.successEventName m, none, pl⟩ p = false) :
    (send cat st m).2 = .promised st.nextId ∧
    (send cat (send cat st m).1 m).2 = .promised (st.nextId + 1) ∧
    (handleEvent cat (send cat (send cat st m).1 m).1
        ⟨cat.successEventName m, none, pl⟩).2 =
      some (.resolved st.nextId pl) ∧
    (handleEvent cat
        (handleEvent cat (send cat (send cat st m).1 m).1
          ⟨cat.successEventName m, none, pl⟩).1
        ⟨cat.successEventName m, none, pl⟩).2 =
      some (.resolved (st.nextId + 1) pl) := by
  have hp : ∀ i : Nat, matchesEvent cat ⟨cat.successEventName m, none, pl⟩
      ⟨i, m⟩ = true := by
    intro i
    simp [matchesEvent]
  have hst1 : (send cat st m).1 =
      ⟨st.pending ++ [⟨st.nextId, m⟩], st.nextId + 1⟩ := by
    simp [send, hm]
  have hst2 : (send cat (send cat st m).1 m).1 =
      ⟨st.pending ++ [⟨st.nextId, m⟩, ⟨st.nextId + 1, m⟩], st.nextId + 2⟩ := by
    rw [hst1]
    simp [send, hm]
  have hh1 : handleEvent cat (send cat (send cat st m).1 m).1
      ⟨cat.successEventName m, none, pl⟩ =
      (⟨st.pending ++ [⟨st.nextId + 1, m⟩], st.nextId + 2⟩,
        some (.resolved st.nextId pl)) := by
    rw [hst2]
    unfold handleEvent
    rw [show (EngineState.mk (st.pending ++ [⟨st.nextId, m⟩, ⟨st.nextId + 1, m⟩])
        (st.nextId + 2)).pending =
      st.pending ++ [⟨st.nextId, m⟩, ⟨st.nextId + 1, m⟩] from rfl]
    rw [findRemove_append_of_none hq]
    simp [findRemove, hp, settleOf]
  have hh2 : handleEvent cat
      ⟨st.pending ++ [⟨st.nextId + 1, m⟩], st.nextId + 2⟩
      ⟨cat.successEventName m, none, pl⟩ =
      (⟨st.pending, st.nextId + 2⟩, some (.resolved (st.nextId + 1) pl)) := by
    unfold handleEvent
    rw [show (EngineState.mk (st.pending ++ [⟨st.nextId + 1, m⟩])
        (st.nextId + 2)).pending = st.pending ++ [⟨st.nextId + 1, m⟩] from rfl]
    rw [findRemove_append_of_none hq]
    simp [findRemove, hp, settleOf]
  refine ⟨by simp [send, hm], ?_, ?_, ?_⟩
  · rw [hst1]; simp [send, hm]
  · rw [hh1]
  · rw [hh1, hh2]

/-- Claim C4, evaluated: two calls to `VKWebAppGetUserInfo` from the
initial state, then two bare success events, resolve ids 0 then 1. -/
theorem fifo_tiebreak_witness :
    (send sampleCat EngineState.start "VKWebAppGetUserInfo").2 = .promised 0 ∧
    (send sampleCat (send sampleCat EngineState.start "VKWebAppGetUserInfo").1
        "VKWebAppGetUserInfo").2 = .promised 1 ∧
    (handleEvent sampleCat
        (send sampleCat (send sampleCat EngineState.start "VKWebAppGetUserInfo").1
          "VKWebAppGetUserInfo").1
        ⟨sampleCat.successEventName "VKWebAppGetUserInfo", none, .obj []⟩).2 =
      some (.resolved 0 (.obj [])) ∧
    (handleEvent sampleCat
        (handleEvent sampleCat
          (send sampleCat (send sampleCat EngineState.start "VKWebAppGetUserInfo").1
            "VKWebAppGetUserInfo").1
          ⟨sampleCat.successEventName "VKWebAppGetUserInfo", none, .obj []⟩).1
        ⟨sampleCat.successEventName "VKWebAppGetUserInfo", none, .obj []⟩).2 =
      some (.resolved 1 (.obj [])) :=
  fifo_tiebreak sampleCat EngineState.start "VKWebAppGetUserInfo" (.obj [])
    (by decide) (by intro p hp; simp [EngineState.start] at hp)

/-- Listeners used to evaluate the dispatch theorems: the first one
throws on every event, the second returns normally. -/
def sampleListeners : List Listener :=
  [⟨1, fun _ => .error "boom"⟩, ⟨2, fun _ => .ok ()⟩]

/-- The same listener identities with different outcomes: none throws
where the other set throws. -/
def sampleListenersSwapped : List Listener :=
  [⟨1, fun _ => .ok ()⟩, ⟨2, fun _ => .error "later"⟩]

/-- Claim C5: processing an inbound event delivers it to every
currently-subscribed listener exactly once, in subscription order (the
delivery trace names exactly the listener ids in order), the Correlation
Engine's matching pass runs exactly as `handleEvent` prescribes, and none
of this depends on listener outcomes: replacing the listeners' behaviors
(for instance by throwing ones) with the identities kept changes neither
the delivery order nor the engine's state and settlement. -/
theorem broadcast_independence (cat : Catalogue) (st : FullState) (e : InEvent) :
    ((processInbound cat st e).2.1.map Prod.fst = st.listeners.map Listener.id) ∧
    ((processInbound cat st e).1.engine = (handleEvent cat st.engine e).1) ∧
    ((processInbound cat st e).2.2 = (handleEvent cat st.engine e).2) ∧
    (∀ ls : List Listener, ls.map Listener.id = st.listeners.map Listener.id →
      (processInbound cat ⟨st.engine, ls⟩ e).2.1.map Prod.fst =
          (processInbound cat st e).2.1.map Prod.fst ∧
      (processInbound cat ⟨st.engine, ls⟩ e).1.engine =
          (processInbound cat st e).1.engine ∧
      (processInbound cat ⟨st.engine, ls⟩ e).2.2 =
          (processInbound cat st e).2.2) := by
  have hmap : ∀ (ls : List Listener),
      (ls.map fun l => (l.id, l.behavior e)).map Prod.fst = ls.map Listener.id := by
    intro ls
    rw [List.map_map]
    rfl
  cases hh : handleEvent cat st.engine e with
  | mk eng sl =>
    refine ⟨?_, ?_, ?_, ?_⟩
    · simp only [processInbound, hh]
      exact hmap st.listeners
    · simp [processInbound, hh]
    · simp [processInbound, hh]
    · intro ls hls
      refine ⟨?_, ?_, ?_⟩
      · simp only [processInbound, hh]
        rw [hmap ls, hmap st.listeners, hls]
      · simp [processInbound, hh]
      · simp [processInbound, hh]

/-- Claim C5, evaluated: with a throwing first listener the delivery trace
is still `[1, 2]` in subscription order, and swapping which listener
throws leaves the engine state and the settlement unchanged. -/
theorem broadcast_independence_witness :
    ((processInbound sampleCat ⟨EngineState.start, sampleListeners⟩
        (sampleSuccess none)).2.1.map Prod.fst =
      sampleListeners.map Listener.id) ∧
    ((processInbound sampleCat ⟨EngineState.start, sampleListenersSwapped⟩
        (sampleSuccess none)).1.engine =
      (processInbound sampleCat ⟨EngineState.start, sampleListeners⟩
        (sampleSuccess none)).1.engine) ∧
    ((processInbound sampleCat ⟨EngineState.start, sampleListenersSwapped⟩
        (sampleSuccess none)).2.2 =
      (processInbound sampleCat ⟨EngineState.start, sampleListeners⟩
        (sampleSuccess none)).2.2) := by
  have h := broadcast_independence sampleCat ⟨EngineState.start, sampleListeners⟩
    (sampleSuccess none)
  have h2 := h.2.2.2 sampleListenersSwapped rfl
  exact ⟨h.1, h2.2.1, h2.2.2⟩

theorem reqField_isStrVal {v : JVal} {k s : String}
    (h : reqField v k (isStrVal s) = true) : getField v k = some (.str s) := by
  unfold reqField at h
  cases hg : getField v k with
  | none => rw [hg] at h; exact absurd h (by simp)
  | some x =>
    rw [hg] at h
    cases x with
    | str t =>
      have : s = t := by simpa [isStrVal] using h
      rw [this]
    | null => exact absurd h (by simp [isStrVal])
    | bool b => exact absurd h (by simp [isStrVal])
    | num n => exact absurd h (by simp [isStrVal])
    | arr xs => exact absurd h (by simp [isStrVal])
    | obj fs => exact absurd h (by simp [isStrVal])

/-- Claim C6: every value of the `ErrorData` union is one of exactly three
kinds discriminated by its `error_type` field — `client_error`,
`api_error` or `auth_error`, each with the corresponding `error_data`
field set — and the envelope's `request_id`, optional, is a number or a
string when present. -/
theorem errorData_three_kinds (v : JVal) (h : isErrorData v = true) :
    ((getField v "error_type" = some (.str "client_error") ∧
        reqField v "error_data" isErrorDataClientError = true) ∨
      (getField v "error_type" = some (.str "api_error") ∧
        reqField v "error_data" isErrorDataAPIError = true) ∨
      (getField v "error_type" = some (.str "auth_error") ∧
        reqField v "error_data" isErrorDataAuthError = true)) ∧
    optField v "request_id" isNumOrStr = true := by
  unfold isErrorData at h
  rw [Bool.and_eq_true] at h
  obtain ⟨hk, hrid⟩ := h
  refine ⟨?_, hrid⟩
  rw [Bool.or_eq_true, Bool.or_eq_true] at hk
  rcases hk with (hk | hk) | hk
  · rw [Bool.and_eq_true] at hk
    exact Or.inl ⟨reqField_isStrVal hk.1, hk.2⟩
  · rw [Bool.and_eq_true] at hk
    exact Or.inr (Or.inl ⟨reqField_isStrVal hk.1, hk.2⟩)
  · rw [Bool.and_eq_true] at hk
    exact Or.inr (Or.inr ⟨reqField_isStrVal hk.1, hk.2⟩)

/-- A concrete `ErrorData` value of the `client_error` kind, as in the
spec's failure scenario. -/
def sampleError : JVal :=
  .obj [("error_type", .str "client_error"),
    ("error_data", .obj [("error_code", .num 4),
      ("error_reason", .str "User denied")]),
    ("request_id", .num 1)]

/-- Claim C6, evaluated on the concrete client error. -/
theorem errorData_three_kinds_witness :
    ((getField sampleError "error_type" = some (.str "client_error") ∧
        reqField sampleError "error_data" isErrorDataClientError = true) ∨
      (getField sampleError "error_type" = some (.str "api_error") ∧
        reqField sampleError "error_data" isErrorDataAPIError = true) ∨
      (getField sampleError "error_type" = some (.str "auth_error") ∧
        reqField sampleError "error_data" isErrorDataAuthError = true)) ∧
    optField sampleError "request_id" isNumOrStr = true :=
  errorData_three_kinds sampleError (by decide)

/-- Claim C3, counterexample: the envelope listeners receive, a value of
`VKBridgeEventBase` (src/types/bridge.ts lines 135-140), carries neither a
top-level `type` field nor a top-level `data` field — both sit under its
single `detail` field — so the claim as stated fails on this value. -/
theorem event_envelope_flat_counterexample :
    hasField (mkVKBridgeEventBase "VKWebAppGetUserInfoResult"
      (.obj [("id", .num 42)])) "type" = false ∧
    hasField (mkVKBridgeEventBase "VKWebAppGetUserInfoResult"
      (.obj [("id", .num 42)])) "data" = false ∧
    hasField (mkVKBridgeEventBase "VKWebAppGetUserInfoResult"
      (.obj [("id", .num 42)])) "detail" = true := by
  refine ⟨?_, ?_, ?_⟩ <;> decide

/-- Claim C3 as amended: every event delivered to subscribed listeners is
an envelope carrying a `detail` field, under which sit the `type` (event
name) and the `data` (payload); for success events the data additionally
carries the echoed `request_id` when the host supplied one. -/
theorem event_envelope_detail (t : String) (d : JVal)
    (fs : List (String × JVal)) (rid : Option JVal) (r : JVal)
    (h : rid = some r) :
    getField (mkVKBridgeEventBase t d) "detail" =
      some (.obj [("type", .str t), ("data", d)]) ∧
    getField (.obj [("type", .str t), ("data", d)]) "type" = some (.str t) ∧
    getField (.obj [("type", .str t), ("data", d)]) "data" = some d ∧
    getField (mkVKBridgeSuccessEvent t fs rid) "detail" =
      some (.obj [("type", .str t), ("data", .obj (ridFields rid ++ fs))]) ∧
    getField (.obj (ridFields rid ++ fs)) "request_id" = some r := by
  subst h
  exact ⟨rfl, rfl, rfl, rfl, rfl⟩

/-- Claim C3 as amended, evaluated on the spec's scenario event. -/
theorem event_envelope_detail_witness :
    getField (mkVKBridgeEventBase "VKWebAppGetUserInfoResult"
        (.obj [("id", .num 42)])) "detail" =
      some (.obj [("type", .str "VKWebAppGetUserInfoResult"),
        ("data", .obj [("id", .num 42)])]) ∧
    getField (.obj [("type", .str "VKWebAppGetUserInfoResult"),
        ("data", .obj [("id", .num 42)])]) "type" =
      some (.str "VKWebAppGetUserInfoResult") ∧
    getField (.obj [("type", .str "VKWebAppGetUserInfoResult"),
        ("data", .obj [("id", .num 42)])]) "data" =
      some (.obj [("id", .num 42)]) ∧
    getField (mkVKBridgeSuccessEvent "VKWebAppGetUserInfoResult"
        [("id", .num 42)] (some (.num 1))) "detail" =
      some (.obj [("type", .str "VKWebAppGetUserInfoResult"),
        ("data", .obj (ridFields (some (.num 1)) ++ [("id", .num 42)]))]) ∧
    getField (.obj (ridFields (some (.num 1)) ++ [("id", .num 42)]))
        "request_id" = some (.num 1) :=
  event_envelope_detail "VKWebAppGetUserInfoResult" (.obj [("id", .num 42)])
    [("id", .num 42)] (some (.num 1)) (.num 1) rfl

/-- A representative `ReceiveData` catalogue mapping for evaluating the
type-level theorems. -/
def sampleRd : String → Ty :=
  fun _ => .obj [("id", false, .num)]

/-- Claim C7: `send` at a receive-capable method has return type
`Promise<ReceiveData<K>>`, and at a request-only method it has return type
`Promise<void>` and resolves immediately — no Pending Call is created and
the result is the immediately resolved void promise. -/
theorem send_return_type (cat : Catalogue) (rd : String → Ty)
    (st : EngineState) (m : String) :
    (cat.isReceiveMethod m = true →
      sendReturnTy cat.isReceiveMethod rd m = .promise (rd m)) ∧
    (cat.isReceiveMethod m = false →
      sendReturnTy cat.isReceiveMethod rd m = .promise .void ∧
      send cat st m = (st, .immediate)) := by
  constructor
  · intro h
    simp [sendReturnTy, h]
  · intro h
    exact ⟨by simp [sendReturnTy, h], by simp [send, h]⟩

/-- Claim C7, evaluated: the receive-capable `VKWebAppGetUserInfo` yields a
data promise; the request-only `VKWebAppInit` yields a void promise and
resolves immediately, leaving the engine untouched. -/
theorem send_return_type_witness :
    sendReturnTy sampleCat.isReceiveMethod sampleRd "VKWebAppGetUserInfo" =
      .promise (sampleRd "VKWebAppGetUserInfo") ∧
    sendReturnTy sampleCat.isReceiveMethod sampleRd "VKWebAppInit" =
      .promise .void ∧
    send sampleCat EngineState.start "VKWebAppInit" =
      (EngineState.start, .immediate) := by
  refine ⟨?_, ?_, ?_⟩
  · exact (send_return_type sampleCat sampleRd EngineState.start
      "VKWebAppGetUserInfo").1 (by decide)
  · exact ((send_return_type sampleCat sampleRd EngineState.start
      "VKWebAppInit").2 (by decide)).1
  · exact ((send_return_type sampleCat sampleRd EngineState.start
      "VKWebAppInit").2 (by decide)).2

theorem lookup_eq_none_of {β : Type} (m : String) :
    ∀ (l : List (String × β)), (∀ e ∈ l, e.1 ≠ m) → l.lookup m = none := by
  intro l
  induction l with
  | nil => intro _; rfl
  | cons x xs ih =>
    intro h
    have hx : x.1 ≠ m := h x (List.mem_cons_self x xs)
    have hbeq : (m == x.1) = false := by simpa using fun hEq => hx hEq.symm
    obtain ⟨k, b⟩ := x
    simp only [List.lookup]
    rw [show (m == k) = false from hbeq]
    simp only [Bool.false_eq_true, if_false]
    exact ih fun y hy => h y (List.mem_cons_of_mem _ hy)

/-- Claim C8: `supports` is a pure query — it leaves the facade state
untouched and only returns a boolean — and for every method name absent
from the static capability catalogue it returns `false` (fail closed). -/
theorem supports_fail_closed (entries : List (String × Bool)) (st : FullState)
    (m : String) (h : ∀ e ∈ entries, e.1 ≠ m) :
    supports entries m = false ∧
    supportsQuery st entries m = (st, supports entries m) := by
  refine ⟨?_, rfl⟩
  unfold supports
  rw [lookup_eq_none_of m entries h]

/-- Claim C8, evaluated: an unknown method name against a one-entry
catalogue. -/
theorem supports_fail_closed_witness :
    supports [("VKWebAppGetUserInfo", true)] "totally_unknown_method" = false ∧
    supportsQuery ⟨EngineState.start, []⟩ [("VKWebAppGetUserInfo", true)]
        "totally_unknown_method" =
      (⟨EngineState.start, []⟩,
        supports [("VKWebAppGetUserInfo", true)] "totally_unknown_method") :=
  supports_fail_closed [("VKWebAppGetUserInfo", true)]
    ⟨EngineState.start, []⟩ "totally_unknown_method" (by decide)

/-- Claim C9: the `sendPromise` member of the `VKBridge` interface has the
very type of the `send` member (`VKBridgeSend`): at every method name it
accepts exactly the props `send` accepts and returns a promise of the same
type. -/
theorem sendPromise_alias (isReceive : String → Bool) (rp rd : String → Ty)
    (m : String) :
    VKBridge_sendPromise_sig isReceive rp rd m =
      VKBridge_send_sig isReceive rp rd m ∧
    (VKBridge_sendPromise_sig isReceive rp rd m).1 = sendPropsTy rp m ∧
    (VKBridge_sendPromise_sig isReceive rp rd m).2 =
      sendReturnTy isReceive rd m :=
  ⟨rfl, rfl, rfl⟩

/-- Claim C10: the props parameter of `send` at any request method is
`RequestProps<K> & RequestIdProp`, so the caller may themselves include an
optional `request_id` field of type `number | string`. -/
theorem send_props_request_id (rp : String → Ty) (m : String) :
    sendPropsTy rp m = .inter (rp m) requestIdPropTy ∧
    hasOptionalRequestIdField (sendPropsTy rp m) = true := by
  refine ⟨rfl, ?_⟩
  simp [sendPropsTy, hasOptionalRequestIdField, requestIdPropTy, isNumOrStrTy]

end VKConnect
